import Mathlib

/-!
Verification development for the health-gap scan pipeline.

Shallow embedding of the TypeScript sources:
  packages/shared/src/rateLimit.ts, packages/shared/src/utils.ts,
  packages/ai-engine/src/research.ts, packages/ai-engine/src/vision.ts,
  packages/ai-engine/src/ui/ui.ts, and the /api/scan route.

JavaScript numbers are modelled as rationals (ℚ); the sources never rely
on float rounding in the properties considered here.  External LLM and
search calls are modelled as explicit oracle parameters: the functions
under verification treat their output as untrusted data, so every
property is proved for all possible oracle answers or refuted at a
concrete one.  Optional JS fields are Option values and JS truthiness
(empty string and zero are falsy, arrays and objects are truthy) is
modelled explicitly by the jsOr helpers.
-/

namespace HealthGap

/-- Model of a parsed JSON value (result of JSON.parse on model output).
JSON cannot produce NaN or undefined; absent object fields are modelled
by a failing lookup. -/
inductive JVal where
  | null
  | bool (b : Bool)
  | num (q : ℚ)
  | str (s : String)
  | arr (elems : List JVal)
  | obj (fields : List (String × JVal))
deriving Repr

/-- Field lookup on a JSON object: js expression v.k for an object, and
undefined (none) on every other shape. -/
def JVal.get : JVal → String → Option JVal
  | .obj fields, k => (fields.find? (fun f => f.1 == k)).map (fun f => f.2)
  | _, _ => none

/-- JS truthiness of a parsed JSON value: null, false, 0 and "" are
falsy; arrays and objects are always truthy. -/
def JVal.truthy : JVal → Bool
  | .null => false
  | .bool b => b
  | .num q => q != 0
  | .str s => s != ""
  | .arr _ => true
  | .obj _ => true

/-- js expression a || b for an optional string where the empty string is
falsy (used for patterns like c.variant || "card"). -/
def jsOrStr (a : Option String) (b : String) : String :=
  match a with
  | some s => if s = "" then b else s
  | none => b

/-- js expression a || b for an optional number where 0 is falsy (used
for patterns like c.metadata?.confidence || 0.5). -/
def jsOrNum (a : Option ℚ) (b : ℚ) : ℚ :=
  match a with
  | some q => if q = 0 then b else q
  | none => b

/-- js expression a || b for two JSON values (a may be an absent field). -/
def jsOrJVal (a : Option JVal) (b : JVal) : JVal :=
  match a with
  | some v => if v.truthy then v else b
  | none => b

/-! ## Research stage data model (packages/ai-engine/src/research.ts and
the shared zod schemas).  Enum-typed fields are carried as strings
together with the declared value lists, exactly as the coercion layer
treats them. -/

def REGION_VALUES : List String :=
  ["UNITED_STATES", "EUROPEAN_UNION", "UNITED_KINGDOM", "CANADA",
   "AUSTRALIA_NZ", "JAPAN", "CHINA", "GLOBAL_WHO", "OTHER", "UNSPECIFIED"]

def CREDIBILITY_VALUES : List String :=
  ["REGULATORY_AUTHORITY", "PEER_REVIEWED_RESEARCH", "INSTITUTIONAL_RESEARCH",
   "INDUSTRY_PUBLICATION", "NEWS_MEDIA", "GENERAL_WEB"]

def STANCE_VALUES : List String :=
  ["APPROVED", "CONDITIONALLY_SAFE", "UNDER_REVIEW",
   "CAUTION_ADVISED", "RESTRICTED", "PROHIBITED"]

def CONFLICT_TYPE_VALUES : List String :=
  ["REGIONAL", "SCIENTIFIC", "DOSAGE", "POPULATION", "TEMPORAL", "METHODOLOGICAL"]

def RISK_LEVEL_VALUES : List String :=
  ["HIGH_SCRUTINY", "MODERATE_SCRUTINY", "STANDARD_REVIEW", "GENERALLY_RECOGNIZED_SAFE"]

structure SourceClaim where
  source : String
  sourceUrl : Option String
  sourceCredibility : String
  claim : String
  stance : String
  region : String
  datePublished : Option String
  confidenceInClassification : ℚ
deriving Repr, DecidableEq

structure IngredientResearch where
  ingredient : String
  riskLevel : String
  claims : List SourceClaim
  conflictDetected : Bool
  conflictType : Option String
  conflictSummary : Option String
  confidenceScore : ℚ
  ambiguityLevel : String
  riskAssessmentReasoning : String
deriving Repr, DecidableEq

structure GroundedResearchResult where
  ingredientResearch : List IngredientResearch
  overallConfidence : ℚ
  unresolvedConflicts : List String
  dataQualityWarnings : List String
deriving Repr, DecidableEq

inductive ConsensusStatus where
  | CLEAR_CONSENSUS
  | CONFLICTING_EVIDENCE
  | INSUFFICIENT_DATA
deriving Repr, DecidableEq

/-- research.ts determineConsensusStatus, translated clause for clause. -/
def determineConsensusStatus (research : GroundedResearchResult) : ConsensusStatus :=
  if research.ingredientResearch.length = 0 then
    .INSUFFICIENT_DATA
  else
    let totalClaims := research.ingredientResearch.foldl (fun acc ir => acc + ir.claims.length) 0
    if totalClaims < 2 then
      .INSUFFICIENT_DATA
    else if research.unresolvedConflicts.length > 0 then
      .CONFLICTING_EVIDENCE
    else if research.ingredientResearch.any (fun ir => ir.conflictDetected) then
      .CONFLICTING_EVIDENCE
    else if research.overallConfidence ≥ (0.7 : ℚ) then
      .CLEAR_CONSENSUS
    else
      .INSUFFICIENT_DATA

/-- Consensus status as the spec words it (section 4.5 step 6 of the
spec): INSUFFICIENT_DATA if zero ingredients were researched or the
total claim count is below 2; otherwise CONFLICTING_EVIDENCE if any
unresolved conflict or any per-ingredient detected conflict exists;
otherwise CLEAR_CONSENSUS when overall confidence is at least 0.7, and
INSUFFICIENT_DATA otherwise.  This definition follows the words of the
spec and is compared with the code translation above. -/
def consensusStatusSpec (research : GroundedResearchResult) : ConsensusStatus :=
  if research.ingredientResearch.length = 0 ∨
     (research.ingredientResearch.map (fun ir => ir.claims.length)).sum < 2 then
    .INSUFFICIENT_DATA
  else if research.unresolvedConflicts ≠ [] ∨
          (∃ ir ∈ research.ingredientResearch, ir.conflictDetected) then
    .CONFLICTING_EVIDENCE
  else if (0.7 : ℚ) ≤ research.overallConfidence then
    .CLEAR_CONSENSUS
  else
    .INSUFFICIENT_DATA

theorem foldl_add_claims (l : List IngredientResearch) (n : ℕ) :
    l.foldl (fun acc ir => acc + ir.claims.length) n
      = n + (l.map (fun ir => ir.claims.length)).sum := by
  induction l generalizing n with
  | nil => simp
  | cons x xs ih => simp [ih, Nat.add_assoc]

theorem determineConsensusStatus_eq_spec (r : GroundedResearchResult) :
    determineConsensusStatus r = consensusStatusSpec r := by
  unfold determineConsensusStatus consensusStatusSpec
  rw [foldl_add_claims]
  simp only [Nat.zero_add]
  by_cases h0 : r.ingredientResearch.length = 0
  · simp [h0]
  · by_cases h1 : (r.ingredientResearch.map (fun ir => ir.claims.length)).sum < 2
    · simp [h0, h1]
    · by_cases h2 : r.unresolvedConflicts.length > 0
      · have h2ne : r.unresolvedConflicts ≠ [] := by
          intro he; rw [he] at h2; simp at h2
        simp [h0, h1, h2, h2ne]
      · have h2e : r.unresolvedConflicts = [] := by
          cases hc : r.unresolvedConflicts with
          | nil => rfl
          | cons a l => rw [hc] at h2; simp at h2
        by_cases h3 : r.ingredientResearch.any (fun ir => ir.conflictDetected) = true
        · have h3e : ∃ ir ∈ r.ingredientResearch, ir.conflictDetected := by
            simpa using List.any_eq_true.mp h3
          simp [h0, h1, h2, h2e, h3, h3e]
        · have h3e : ¬ ∃ ir ∈ r.ingredientResearch, ir.conflictDetected := by
            intro he
            exact h3 (List.any_eq_true.mpr (by simpa using he))
          by_cases h4 : (0.7 : ℚ) ≤ r.overallConfidence
          · simp [h0, h1, h2e, h3, h3e, h4]
          · simp [h0, h1, h2e, h3, h3e, h4]

/-! ## Trade-off extraction (research.ts extractTradeOffContexts). -/

structure TradeOffPosition where
  source : String
  sourceCredibility : String
  region : String
  stance : String
  rationale : String
deriving Repr, DecidableEq

structure TradeOffContext where
  ingredient : String
  conflictType : String
  summary : String
  positions : List TradeOffPosition
  userGuidance : String
deriving Repr, DecidableEq

/-- Body of the loop in extractTradeOffContexts for one ingredient that
passed the guard (conflict detected and at least one claim). -/
def tradeOffOf (ir : IngredientResearch) : TradeOffContext :=
  { ingredient := ir.ingredient
    conflictType := jsOrStr ir.conflictType "SCIENTIFIC"
    summary := jsOrStr ir.conflictSummary "Conflicting positions detected"
    positions :=
      ((ir.claims.filter (fun c => c.stance ≠ "UNDER_REVIEW")).take 4).map (fun c =>
        { source := c.source
          sourceCredibility := c.sourceCredibility
          region := c.region
          stance := c.stance
          rationale := c.claim.take 200 })
    userGuidance := "Conflicting evidence detected for " ++ ir.ingredient ++ ". See positions below." }

/-- research.ts extractTradeOffContexts: skips every ingredient without a
detected conflict or with an empty claims list, and keeps the rest in
order.  (The source function is async but performs no awaited calls.) -/
def extractTradeOffContexts (research : GroundedResearchResult) : List TradeOffContext :=
  research.ingredientResearch.filterMap (fun ir =>
    if ir.conflictDetected ∧ ir.claims.length ≠ 0 then some (tradeOffOf ir) else none)

/-! ## Ingredient selection in researchAgent (research.ts lines 686-709). -/

structure RiskDetail where
  riskLevel : String
  reasoning : String
  requiresDeepResearch : Bool
deriving Repr, DecidableEq

structure RiskAssessmentData where
  ingredientsToResearch : List String
  riskDetails : List (String × RiskDetail)
deriving Repr, DecidableEq

/-- The selection at the top of researchAgent: start from
riskAssessmentData?.ingredientsToResearch || [] and push the full
ingredient list when no risk assessment is present and the list has
fewer than 5 entries. -/
def researchAgentSelectIngredients (ingredients : List String)
    (riskAssessmentData : Option RiskAssessmentData) : List String :=
  let base := match riskAssessmentData with
    | some ra => ra.ingredientsToResearch
    | none => []
  if riskAssessmentData.isNone ∧ ingredients.length < 5 then base ++ ingredients else base

/-- Selection as the spec words it (claim C5): the risk assessment set
when present; otherwise the full list whenever it has at most 5
ingredients, and empty otherwise.  Written from the claim to be compared
with the code translation above. -/
def selectIngredientsSpec (ingredients : List String)
    (riskAssessmentData : Option RiskAssessmentData) : List String :=
  match riskAssessmentData with
  | some ra => ra.ingredientsToResearch
  | none => if ingredients.length ≤ 5 then ingredients else []

/-! ## Defensive coercion layer (research.ts lines 31-74) and the claim
construction loop of analyzeResearchWithLLM (lines 279-317).  parseInt
and parseFloat are modelled as oracle parameters (String to Option
number): every property proved below holds for all oracle behaviours. -/

mutual

/-- JSON.stringify, used by coerceToString and the UI prop
normalisation.  JS number formatting and string escaping are
approximated; no verified property depends on the rendered text. -/
def JVal.stringify : JVal → String
  | .null => "null"
  | .bool b => if b then "true" else "false"
  | .num q => toString q
  | .str s => "\x22" ++ s ++ "\x22"
  | .arr l => "[" ++ String.intercalate "," (stringifyList l) ++ "]"
  | .obj fs => "\x7b" ++ String.intercalate "," (stringifyFields fs) ++ "\x7d"

def stringifyList : List JVal → List String
  | [] => []
  | v :: vs => v.stringify :: stringifyList vs

def stringifyFields : List (String × JVal) → List String
  | [] => []
  | f :: fs => ("\x22" ++ f.1 ++ "\x22:" ++ f.2.stringify) :: stringifyFields fs

end

/-- JS String.prototype.includes on character lists: needle occurs as a
contiguous substring of hay. -/
def isSubstrOf (needle hay : List Char) : Bool :=
  (List.range (hay.length + 1)).any (fun i => needle.isPrefixOf (hay.drop i))

/-- value.toUpperCase().replace of every character outside A-Z0-9, the
normalisation inside findClosestEnumValue. -/
def normalizeEnumToken (s : String) : String :=
  String.mk ((s.data.map Char.toUpper).filter
    (fun c => (decide (Char.ofNat 65 ≤ c) && decide (c ≤ Char.ofNat 90))
      || (decide (Char.ofNat 48 ≤ c) && decide (c ≤ Char.ofNat 57))))

/-- research.ts findClosestEnumValue: exact normalised match first, then
substring containment in either direction, else the default.  A
non-string input (including an absent field) yields the default. -/
def findClosestEnumValue (value : Option JVal) (validValues : List String)
    (defaultValue : String) : String :=
  match value with
  | some (.str s) =>
    match validValues.find? (fun v => normalizeEnumToken v == normalizeEnumToken s) with
    | some v => v
    | none =>
      match validValues.find? (fun v =>
          isSubstrOf (normalizeEnumToken s).data (normalizeEnumToken v).data
            || isSubstrOf (normalizeEnumToken v).data (normalizeEnumToken s).data) with
      | some v => v
      | none => defaultValue
  | _ => defaultValue

/-- research.ts coerceToNumber: clamp numbers and parseable strings into
the requested interval, otherwise return the default unchanged. -/
def coerceToNumber (parseFloatO : String → Option ℚ) (value : Option JVal)
    (defaultVal mn mx : ℚ) : ℚ :=
  match value with
  | some (.num q) => max mn (min mx q)
  | some (.str s) =>
    match parseFloatO s with
    | some q => max mn (min mx q)
    | none => defaultVal
  | _ => defaultVal

/-- research.ts coerceToString.  The object branch models the
text-message-content-value-reasoning coalescing chain (?? skips null). -/
def coerceToString (v : JVal) : String :=
  match v with
  | .str s => s
  | .null => ""
  | .arr l =>
    String.intercalate "; " (l.filterMap (fun e =>
      match e with
      | .str s => some s
      | _ => none))
  | .obj fs =>
    let g : String → Option JVal := fun k =>
      match (JVal.obj fs).get k with
      | some .null => none
      | o => o
    match g "text" <|> g "message" <|> g "content" <|> g "value" <|> g "reasoning" with
    | some (.str s) => s
    | _ => (JVal.obj fs).stringify
  | .bool b => if b then "true" else "false"
  | .num q => toString q

/-- research.ts coerceToBoolean; an absent field is Boolean(undefined). -/
def coerceToBoolean (value : Option JVal) : Bool :=
  match value with
  | some (.bool b) => b
  | some (.str s) => s.toLower == "true" || s == "1"
  | some v => v.truthy
  | none => false

/-- One entry of the claimsData array of analyzeResearchWithLLM: the
source metadata the coercion loop joins claims against. -/
structure SourceData where
  idx : ℕ
  content : String
  title : String
  url : String
  publishedDate : Option String
deriving Repr, DecidableEq

/-- typeof rawClaim === "object" && rawClaim !== null (arrays count). -/
def isJsObject : JVal → Bool
  | .obj _ => true
  | .arr _ => true
  | _ => false

/-- Object.entries on a parsed JSON value.  Primitive inputs yield no
processable entries (string index entries would be skipped by the
object guard of the loop anyway). -/
def jsEntries : JVal → List (String × JVal)
  | .obj fs => fs
  | .arr l => l.enum.map (fun p => (toString p.1, p.2))
  | _ => []

/-- The SourceClaim the loop assembles from one raw per-source entry,
keyed by URL when available and the raw key otherwise. -/
def buildSourceClaim (parseFloatO : String → Option ℚ) (src : SourceData)
    (key : String) (rc : JVal) : String × SourceClaim :=
  (if src.url = "" then key else src.url,
    { source := if src.title = "" then src.url else src.title
      sourceUrl := some src.url
      sourceCredibility := findClosestEnumValue (rc.get "sourceCredibility") CREDIBILITY_VALUES "GENERAL_WEB"
      claim := coerceToString (jsOrJVal (rc.get "claim") (.str src.content))
      stance := findClosestEnumValue (rc.get "stance") STANCE_VALUES "UNDER_REVIEW"
      region := findClosestEnumValue (rc.get "region") REGION_VALUES "UNSPECIFIED"
      datePublished := src.publishedDate
      confidenceInClassification := coerceToNumber parseFloatO (rc.get "confidence") 0.5 0 1 })

/-- claims[claimKey] = v on a JS object modelled as an association list:
replace an existing binding, else append. -/
def upsertClaim (l : List (String × SourceClaim)) (k : String) (v : SourceClaim) :
    List (String × SourceClaim) :=
  if l.any (fun p => p.1 == k) then l.map (fun p => if p.1 == k then (k, v) else p)
  else l ++ [(k, v)]

/-- The claim-construction loop of analyzeResearchWithLLM (lines
282-301): iterate the entries of parsed.claims, join each against
claimsData by parsed integer index, and coerce matched object entries
into SourceClaims. -/
def buildClaims (parseIntO : String → Option ℤ) (parseFloatO : String → Option ℚ)
    (claimsData : List SourceData) (rawClaims : JVal) : List (String × SourceClaim) :=
  (jsEntries rawClaims).foldl (fun acc kv =>
    match parseIntO kv.1 with
    | none => acc
    | some idx =>
      match claimsData.find? (fun c => (c.idx : ℤ) == idx) with
      | none => acc
      | some src =>
        if isJsObject kv.2 then
          let built := buildSourceClaim parseFloatO src kv.1 kv.2
          upsertClaim acc built.1 built.2
        else acc) []

structure ConflictInfo where
  detected : Bool
  type : Option String
  confidence : ℚ
  summary : Option String
deriving Repr, DecidableEq

structure CombinedResearchResult where
  claims : List (String × SourceClaim)
  conflict : ConflictInfo
deriving Repr, DecidableEq

/-- The conflict normalisation of analyzeResearchWithLLM (lines
303-317). -/
def parseConflict (parseFloatO : String → Option ℚ) (parsed : JVal) : ConflictInfo :=
  let rawConflict := jsOrJVal (parsed.get "conflict") (.obj [])
  { detected := coerceToBoolean (rawConflict.get "detected")
    type :=
      match rawConflict.get "type" with
      | some (.str s) => some (findClosestEnumValue (some (.str s)) CONFLICT_TYPE_VALUES "REGIONAL")
      | _ => none
    confidence := coerceToNumber parseFloatO (rawConflict.get "confidence") 0.5 0 1
    summary :=
      match rawConflict.get "summary" with
      | some v => if v.truthy then some (coerceToString v) else none
      | none => none }

/-- The pure core of analyzeResearchWithLLM on successfully parsed model
output: assemble the coerced claims record and the conflict verdict. -/
def analyzeResearchCore (parseIntO : String → Option ℤ) (parseFloatO : String → Option ℚ)
    (claimsData : List SourceData) (parsed : JVal) : CombinedResearchResult :=
  { claims := buildClaims parseIntO parseFloatO claimsData (jsOrJVal (parsed.get "claims") (.obj []))
    conflict := parseConflict parseFloatO parsed }

/-- The IngredientResearch researchIngredient returns when the primary
analysis succeeded and no secondary regulatory search ran (lines
438-448): the claims are the values of the analysis record and the
conflict verdict is copied field by field. -/
def ingredientResearchOfAnalysis (ingredient riskLevel : String)
    (analysis : CombinedResearchResult) : IngredientResearch :=
  { ingredient := ingredient
    riskLevel := riskLevel
    claims := analysis.claims.map (fun p => p.2)
    conflictDetected := analysis.conflict.detected
    conflictType := analysis.conflict.type
    conflictSummary := analysis.conflict.summary
    confidenceScore := analysis.conflict.confidence
    ambiguityLevel := "medium"
    riskAssessmentReasoning := "Risk level " ++ riskLevel ++ " based on LLM assessment" }

/-- The per-result reduction of performGroundedResearch (lines 519-551)
over fulfilled ingredient researches: unresolved conflicts collect the
ingredients with a detected conflict and a truthy summary, warnings
collect the ingredients without sources, and the overall confidence is
the mean of the per-ingredient scores (0.5 when nothing was
researched).  Timeout warnings and the capping warning only extend
dataQualityWarnings and are not modelled. -/
def aggregateGroundedResearch (results : List IngredientResearch) : GroundedResearchResult :=
  let scores := results.map (fun ir => ir.confidenceScore)
  { ingredientResearch := results
    overallConfidence := if scores.length > 0 then scores.sum / scores.length else 0.5
    unresolvedConflicts := results.filterMap (fun ir =>
      match ir.conflictSummary with
      | some s => if ir.conflictDetected ∧ s ≠ "" then some (ir.ingredient ++ ": " ++ s) else none
      | none => none)
    dataQualityWarnings := results.filterMap (fun ir =>
      if ir.claims.length = 0 then
        some ("No external sources found for \x22" ++ ir.ingredient ++ "\x22")
      else none) }

/-! ## Range-safety of the coercion layer. -/

theorem findClosestEnumValue_mem_or_default (v : Option JVal) (vals : List String)
    (d : String) : findClosestEnumValue v vals d ∈ vals ∨ findClosestEnumValue v vals d = d := by
  unfold findClosestEnumValue
  split
  · split
    · rename_i w h
      exact Or.inl (List.mem_of_find?_eq_some h)
    · split
      · rename_i w h
        exact Or.inl (List.mem_of_find?_eq_some h)
      · exact Or.inr rfl
  · exact Or.inr rfl

theorem coerceToNumber_bounds (pf : String → Option ℚ) (v : Option JVal)
    (d mn mx : ℚ) (h : mn ≤ mx) :
    (mn ≤ coerceToNumber pf v d mn mx ∧ coerceToNumber pf v d mn mx ≤ mx)
      ∨ coerceToNumber pf v d mn mx = d := by
  unfold coerceToNumber
  split
  · exact Or.inl ⟨le_max_left _ _, max_le h (min_le_left _ _)⟩
  · split
    · exact Or.inl ⟨le_max_left _ _, max_le h (min_le_left _ _)⟩
    · exact Or.inr rfl
  · exact Or.inr rfl

/-- The range/enum discipline claimed for every SourceClaim assembled
from raw model JSON. -/
def ClaimWellFormed (c : SourceClaim) : Prop :=
  c.sourceCredibility ∈ CREDIBILITY_VALUES ∧ c.stance ∈ STANCE_VALUES ∧
    c.region ∈ REGION_VALUES ∧
    0 ≤ c.confidenceInClassification ∧ c.confidenceInClassification ≤ 1

instance (c : SourceClaim) : Decidable (ClaimWellFormed c) := by
  unfold ClaimWellFormed
  infer_instance

theorem buildSourceClaim_wf (pf : String → Option ℚ) (src : SourceData)
    (key : String) (rc : JVal) : ClaimWellFormed (buildSourceClaim pf src key rc).2 := by
  refine ⟨?_, ?_, ?_, ?_, ?_⟩
  · show findClosestEnumValue (rc.get "sourceCredibility") CREDIBILITY_VALUES "GENERAL_WEB"
      ∈ CREDIBILITY_VALUES
    rcases findClosestEnumValue_mem_or_default (rc.get "sourceCredibility")
      CREDIBILITY_VALUES "GENERAL_WEB" with h | h
    · exact h
    · rw [h]; decide
  · show findClosestEnumValue (rc.get "stance") STANCE_VALUES "UNDER_REVIEW" ∈ STANCE_VALUES
    rcases findClosestEnumValue_mem_or_default (rc.get "stance")
      STANCE_VALUES "UNDER_REVIEW" with h | h
    · exact h
    · rw [h]; decide
  · show findClosestEnumValue (rc.get "region") REGION_VALUES "UNSPECIFIED" ∈ REGION_VALUES
    rcases findClosestEnumValue_mem_or_default (rc.get "region")
      REGION_VALUES "UNSPECIFIED" with h | h
    · exact h
    · rw [h]; decide
  · show (0 : ℚ) ≤ coerceToNumber pf (rc.get "confidence") 0.5 0 1
    rcases coerceToNumber_bounds pf (rc.get "confidence") 0.5 0 1 (by norm_num) with h | h
    · exact h.1
    · rw [h]; norm_num
  · show coerceToNumber pf (rc.get "confidence") 0.5 0 1 ≤ 1
    rcases coerceToNumber_bounds pf (rc.get "confidence") 0.5 0 1 (by norm_num) with h | h
    · exact h.2
    · rw [h]; norm_num

theorem upsertClaim_wf (l : List (String × SourceClaim)) (k : String) (v : SourceClaim)
    (hl : ∀ e ∈ l, ClaimWellFormed e.2) (hv : ClaimWellFormed v) :
    ∀ e ∈ upsertClaim l k v, ClaimWellFormed e.2 := by
  intro e he
  unfold upsertClaim at he
  split at he
  · obtain ⟨x, hx, hfx⟩ := List.mem_map.mp he
    by_cases hk : x.1 == k
    · simp only [hk, if_true] at hfx
      rw [← hfx]
      exact hv
    · simp only [hk, if_false] at hfx
      rw [← hfx]
      exact hl x hx
  · rcases List.mem_append.mp he with h | h
    · exact hl e h
    · rw [List.mem_singleton.mp h]
      exact hv

theorem buildClaims_wf (pio : String → Option ℤ) (pfo : String → Option ℚ)
    (cd : List SourceData) (raw : JVal) :
    ∀ e ∈ buildClaims pio pfo cd raw, ClaimWellFormed e.2 := by
  unfold buildClaims
  have main : ∀ (l : List (String × JVal)) (acc : List (String × SourceClaim)),
      (∀ e ∈ acc, ClaimWellFormed e.2) →
      ∀ e ∈ l.foldl (fun acc kv =>
        match pio kv.1 with
        | none => acc
        | some idx =>
          match cd.find? (fun c => (c.idx : ℤ) == idx) with
          | none => acc
          | some src =>
            if isJsObject kv.2 then
              let built := buildSourceClaim pfo src kv.1 kv.2
              upsertClaim acc built.1 built.2
            else acc) acc, ClaimWellFormed e.2 := by
    intro l
    induction l with
    | nil => intro acc hacc e he; exact hacc e he
    | cons kv tl ih =>
      intro acc hacc e he
      refine ih _ ?_ e he
      cases hp : pio kv.1 with
      | none => simpa [hp] using hacc
      | some idx =>
        cases hf : cd.find? (fun c => (c.idx : ℤ) == idx) with
        | none => simpa [hp, hf] using hacc
        | some src =>
          by_cases ho : isJsObject kv.2
          · simp only [hp, hf, ho, if_true]
            exact upsertClaim_wf _ _ _ hacc (buildSourceClaim_wf pfo src kv.1 kv.2)
          · simpa [hp, hf, ho] using hacc
  exact main (jsEntries raw) [] (by intro e he; cases he)

/-! ## Claim C2. -/

/-- C2: determineConsensusStatus is a pure function of its
GroundedResearchResult argument (identical inputs always yield the same
status), and it computes exactly the status described by the spec:
INSUFFICIENT_DATA when zero ingredients were researched or the total
claim count is below 2, otherwise CONFLICTING_EVIDENCE when any
unresolved conflict or per-ingredient detected conflict exists,
otherwise CLEAR_CONSENSUS when the overall confidence is at least 0.7,
and INSUFFICIENT_DATA otherwise. -/
theorem C2_determineConsensusStatus_correct :
    (∀ r1 r2 : GroundedResearchResult, r1 = r2 →
        determineConsensusStatus r1 = determineConsensusStatus r2) ∧
    (∀ r : GroundedResearchResult, determineConsensusStatus r = consensusStatusSpec r) :=
  ⟨fun _ _ h => by rw [h], determineConsensusStatus_eq_spec⟩

def sampleApprovedClaim : SourceClaim :=
  { source := "FDA assessment"
    sourceUrl := some "https://example.org/fda"
    sourceCredibility := "REGULATORY_AUTHORITY"
    claim := "Approved for general use"
    stance := "APPROVED"
    region := "UNITED_STATES"
    datePublished := none
    confidenceInClassification := 0.9 }

def C2sample : GroundedResearchResult :=
  { ingredientResearch :=
      [{ ingredient := "tartrazine"
         riskLevel := "HIGH_SCRUTINY"
         claims := [sampleApprovedClaim, sampleApprovedClaim]
         conflictDetected := true
         conflictType := some "REGIONAL"
         conflictSummary := some "EU requires warning labels"
         confidenceScore := 0.9
         ambiguityLevel := "medium"
         riskAssessmentReasoning := "r" }]
    overallConfidence := 0.9
    unresolvedConflicts := []
    dataQualityWarnings := [] }

theorem C2_witness :
    determineConsensusStatus C2sample = determineConsensusStatus C2sample ∧
      determineConsensusStatus C2sample = consensusStatusSpec C2sample ∧
      determineConsensusStatus C2sample = .CONFLICTING_EVIDENCE :=
  ⟨C2_determineConsensusStatus_correct.1 C2sample C2sample rfl,
   C2_determineConsensusStatus_correct.2 C2sample,
   by decide⟩

/-! ## Claim C3. -/

/-- Concrete parseInt oracle matching JS parseInt on the keys that
occur in the concrete inputs below. -/
def sampleParseInt : String → Option ℤ := fun s =>
  if s = "0" then some 0 else if s = "1" then some 1 else none

/-- Concrete parseFloat oracle: nothing in the concrete inputs below is
a numeric string. -/
def sampleParseFloat : String → Option ℚ := fun _ => none

/-- Adversarial but well-formed model output for one ingredient: no
classifiable sources, yet a conflict flagged without a summary. -/
def C3parsedConflictOnly : JVal :=
  .obj [("claims", .obj []), ("conflict", .obj [("detected", .bool true)])]

/-- Model output for a second ingredient: two classified sources and no
conflict. -/
def C3parsedTwoClaims : JVal :=
  .obj [("claims", .obj [("0", .obj []), ("1", .obj [])]), ("conflict", .obj [])]

def C3claimsData : List SourceData :=
  [{ idx := 0, content := "content a", title := "title a",
     url := "https://example.org/a", publishedDate := none },
   { idx := 1, content := "content b", title := "title b",
     url := "https://example.org/b", publishedDate := none }]

/-- A grounded research result reached through the code path itself:
each IngredientResearch is assembled by analyzeResearchWithLLM plus
researchIngredient from concrete parsed model JSON, and the batch is
reduced by the performGroundedResearch loop. -/
def C3research : GroundedResearchResult :=
  aggregateGroundedResearch
    [ingredientResearchOfAnalysis "aspartame" "STANDARD_REVIEW"
        (analyzeResearchCore sampleParseInt sampleParseFloat [] C3parsedConflictOnly),
     ingredientResearchOfAnalysis "sugar" "STANDARD_REVIEW"
        (analyzeResearchCore sampleParseInt sampleParseFloat C3claimsData C3parsedTwoClaims)]

/-- C3 counterexample: at this reachable research result the consensus
status is CONFLICTING_EVIDENCE (an ingredient has a detected conflict)
while extractTradeOffContexts is empty, because the only conflicted
ingredient has an empty claims list and the loop skips it.  The claim
as stated is therefore false. -/
theorem C3_counterexample :
    determineConsensusStatus C3research = .CONFLICTING_EVIDENCE ∧
      extractTradeOffContexts C3research = [] := by
  constructor
  · decide
  · decide

/-- C3 amended: if some ingredient with a detected conflict has at
least one claim, the extracted trade-off contexts are non-empty; every
context lists at most 4 positions, each drawn from claims whose stance
is not UNDER_REVIEW.  (The code builds a context for every ingredient
with a detected conflict and a non-empty claims list, even when every
claim is under review; consensusStatus = CONFLICTING_EVIDENCE alone
does not guarantee a non-empty result.) -/
theorem C3_tradeOffs_nonempty (r : GroundedResearchResult)
    (h : ∃ ir ∈ r.ingredientResearch, ir.conflictDetected ∧ ir.claims ≠ []) :
    extractTradeOffContexts r ≠ [] ∧
      ∀ t ∈ extractTradeOffContexts r, t.positions.length ≤ 4 ∧
        ∀ p ∈ t.positions, p.stance ≠ "UNDER_REVIEW" := by
  obtain ⟨ir, hmem, hc, hne⟩ := h
  constructor
  · have hin : tradeOffOf ir ∈ extractTradeOffContexts r := by
      unfold extractTradeOffContexts
      refine List.mem_filterMap.mpr ⟨ir, hmem, ?_⟩
      have hlen : ir.claims.length ≠ 0 := by
        intro h0
        exact hne (List.length_eq_zero.mp h0)
      simp [hc, hlen]
    exact List.ne_nil_of_mem hin
  · intro t ht
    unfold extractTradeOffContexts at ht
    obtain ⟨ir2, _, hf⟩ := List.mem_filterMap.mp ht
    split at hf
    · have ht2 : t = tradeOffOf ir2 := (Option.some.injEq _ _).mp hf |>.symm
      subst ht2
      constructor
      · show (((ir2.claims.filter (fun c => c.stance ≠ "UNDER_REVIEW")).take 4).map _).length ≤ 4
        rw [List.length_map, List.length_take]
        exact min_le_left _ _
      · intro p hp
        obtain ⟨c, hcmem, hcp⟩ := List.mem_map.mp hp
        have hcfil : c ∈ ir2.claims.filter (fun cl => cl.stance ≠ "UNDER_REVIEW") :=
          List.mem_of_mem_take hcmem
        have hcst := List.of_mem_filter hcfil
        rw [← hcp]
        simpa using hcst
    · cases hf

def C3sampleConflicted : GroundedResearchResult :=
  { ingredientResearch :=
      [{ ingredient := "msg"
         riskLevel := "HIGH_SCRUTINY"
         claims := [sampleApprovedClaim]
         conflictDetected := true
         conflictType := some "REGIONAL"
         conflictSummary := some "EU and US standards differ"
         confidenceScore := 0.8
         ambiguityLevel := "medium"
         riskAssessmentReasoning := "r" }]
    overallConfidence := 0.8
    unresolvedConflicts := ["msg: EU and US standards differ"]
    dataQualityWarnings := [] }

theorem C3_witness :
    extractTradeOffContexts C3sampleConflicted ≠ [] :=
  (C3_tradeOffs_nonempty C3sampleConflicted (by decide)).1

/-! ## Claim C5. -/

def C5ingredients : List String := ["sugar", "palm oil", "msg", "salt", "water"]

/-- C5 counterexample: with no risk assessment and exactly 5
ingredients the code selects nothing, while the claim (full list
whenever at most 5) expects all five.  The cutoff in researchAgent is
length below 5, not at most 5. -/
theorem C5_counterexample :
    researchAgentSelectIngredients C5ingredients none = [] ∧
      selectIngredientsSpec C5ingredients none = C5ingredients ∧
      researchAgentSelectIngredients C5ingredients none ≠
        selectIngredientsSpec C5ingredients none := by
  refine ⟨by decide, by decide, by decide⟩

/-- C5 amended: the selected set equals the risk assessment set when
one is present; when absent it equals the full ingredient list whenever
that list has fewer than 5 ingredients, and is empty otherwise. -/
theorem C5_selection (ingredients : List String) (ra : RiskAssessmentData) :
    researchAgentSelectIngredients ingredients (some ra) = ra.ingredientsToResearch ∧
      (ingredients.length < 5 → researchAgentSelectIngredients ingredients none = ingredients) ∧
      (5 ≤ ingredients.length → researchAgentSelectIngredients ingredients none = []) := by
  refine ⟨?_, ?_, ?_⟩
  · unfold researchAgentSelectIngredients
    simp
  · intro h
    unfold researchAgentSelectIngredients
    simp [h]
  · intro h
    unfold researchAgentSelectIngredients
    simp [Nat.not_lt.mpr h]

theorem C5_witness :
    researchAgentSelectIngredients ["sugar"] (some ⟨["msg"], []⟩) = ["msg"] ∧
      researchAgentSelectIngredients ["sugar"] none = ["sugar"] ∧
      researchAgentSelectIngredients C5ingredients none = [] :=
  ⟨(C5_selection ["sugar"] ⟨["msg"], []⟩).1,
   (C5_selection ["sugar"] ⟨["msg"], []⟩).2.1 (by decide),
   (C5_selection C5ingredients ⟨["msg"], []⟩).2.2 (by decide)⟩

/-! ## Claim C10. -/

/-- C10: the research coercion layer is total and range-safe.  For
every input (modelled as an arbitrary parsed JSON value, with parseInt
and parseFloat as arbitrary oracles) findClosestEnumValue returns a
member of the supplied valid-value list whenever the default is one,
coerceToNumber returns a number in the requested interval or the
default, and every SourceClaim assembled by the claim-construction loop
of analyzeResearchWithLLM has its credibility, stance and region drawn
from the declared enum lists and its classification confidence in
the interval from 0 to 1.  Totality (the loop never throws on malformed
per-source entries) holds by construction: the embedded functions are
total over all JSON shapes. -/
theorem C10_coercion_layer_range_safe :
    (∀ (v : Option JVal) (vals : List String) (d : String), d ∈ vals →
        findClosestEnumValue v vals d ∈ vals) ∧
    (∀ (pf : String → Option ℚ) (v : Option JVal) (d mn mx : ℚ), mn ≤ mx →
        (mn ≤ coerceToNumber pf v d mn mx ∧ coerceToNumber pf v d mn mx ≤ mx) ∨
          coerceToNumber pf v d mn mx = d) ∧
    (∀ (pio : String → Option ℤ) (pfo : String → Option ℚ)
        (cd : List SourceData) (parsed : JVal),
        ∀ e ∈ (analyzeResearchCore pio pfo cd parsed).claims, ClaimWellFormed e.2) := by
  refine ⟨?_, ?_, ?_⟩
  · intro v vals d hd
    rcases findClosestEnumValue_mem_or_default v vals d with h | h
    · exact h
    · rw [h]; exact hd
  · intro pf v d mn mx hle
    exact coerceToNumber_bounds pf v d mn mx hle
  · intro pio pfo cd parsed e he
    exact buildClaims_wf pio pfo cd _ e he

theorem C10_witness :
    findClosestEnumValue (some (.str "peer reviewed research!!")) CREDIBILITY_VALUES
        "GENERAL_WEB" ∈ CREDIBILITY_VALUES ∧
      (((0 : ℚ) ≤ coerceToNumber sampleParseFloat (some (.num 7)) 0.5 0 1 ∧
        coerceToNumber sampleParseFloat (some (.num 7)) 0.5 0 1 ≤ 1) ∨
        coerceToNumber sampleParseFloat (some (.num 7)) 0.5 0 1 = 0.5) ∧
      ∀ e ∈ (analyzeResearchCore sampleParseInt sampleParseFloat C3claimsData
          C3parsedTwoClaims).claims, ClaimWellFormed e.2 :=
  ⟨C10_coercion_layer_range_safe.1 _ CREDIBILITY_VALUES "GENERAL_WEB" (by decide),
   C10_coercion_layer_range_safe.2.1 sampleParseFloat _ 0.5 0 1 (by norm_num),
   C10_coercion_layer_range_safe.2.2 sampleParseInt sampleParseFloat C3claimsData C3parsedTwoClaims⟩

/-! ## Retry executor (packages/shared/src/utils.ts withRetry and
extractRetryAfter).  The thrown error is modelled as a JS value. -/

/-- utils.ts extractRetryAfter: read headers.retry-after from an
error-shaped object; a numeric or float-parseable string value is
seconds, returned as Math.ceil(seconds * 1000) milliseconds. -/
def extractRetryAfter (parseFloatO : String → Option ℚ) (error : JVal) : Option ℤ :=
  if isJsObject error then
    match error.get "headers" with
    | some h =>
      if isJsObject h then
        match h.get "retry-after" with
        | some (.str s) =>
          match parseFloatO s with
          | some q => some ⌈q * 1000⌉
          | none => none
        | some (.num q) => some ⌈q * 1000⌉
        | _ => none
      else none
    | none => none
  else none

/-- The wait computed by withRetry before re-running a failed attempt
(utils.ts lines 107-112): exponential backoff, overridden to the
retry-after hint plus 500ms only when the hint strictly exceeds the
computed backoff. -/
def withRetryWaitTime (parseFloatO : String → Option ℚ) (delay backoff : ℚ)
    (attempt : ℕ) (error : JVal) : ℚ :=
  let waitTime := delay * backoff ^ attempt
  match extractRetryAfter parseFloatO error with
  | some ra => if (ra : ℚ) > waitTime then (ra : ℚ) + 500 else waitTime
  | none => waitTime

/-- The wait as the claim words it: max(delay * backoff ^ attempt,
hint + 500ms) whenever the error carries a retry-after hint.  Written
from the claim to be compared with the code translation above. -/
def withRetryWaitSpec (parseFloatO : String → Option ℚ) (delay backoff : ℚ)
    (attempt : ℕ) (error : JVal) : ℚ :=
  match extractRetryAfter parseFloatO error with
  | some ra => max (delay * backoff ^ attempt) ((ra : ℚ) + 500)
  | none => delay * backoff ^ attempt

/-- A 429 error carrying a retry-after hint of 1 second, hit at the
third attempt (attempt = 2) of a withRetry with delay 250ms and
backoff 2, so that the computed backoff is exactly 1000ms. -/
def C4error : JVal :=
  .obj [("status", .num 429), ("headers", .obj [("retry-after", .num 1)])]

theorem C4_extractRetryAfter_eval :
    extractRetryAfter sampleParseFloat C4error = some 1000 := by
  have hceil : (⌈(1 : ℚ) * 1000⌉ : ℤ) = 1000 := by
    norm_num
  simp [extractRetryAfter, C4error, isJsObject, JVal.get, hceil]

/-- C4 counterexample: with computed backoff 1000ms and a hint of
1000ms the code keeps the 1000ms backoff (the hint does not strictly
exceed it), while the claimed formula max(computed, hint + 500ms)
yields 1500ms.  The claim as stated is therefore false. -/
theorem C4_counterexample :
    withRetryWaitTime sampleParseFloat 250 2 2 C4error = 1000 ∧
      withRetryWaitSpec sampleParseFloat 250 2 2 C4error = 1500 ∧
      withRetryWaitTime sampleParseFloat 250 2 2 C4error ≠
        withRetryWaitSpec sampleParseFloat 250 2 2 C4error := by
  refine ⟨?_, ?_, ?_⟩
  · rw [withRetryWaitTime, C4_extractRetryAfter_eval]
    norm_num
  · rw [withRetryWaitSpec, C4_extractRetryAfter_eval]
    norm_num
  · rw [withRetryWaitTime, withRetryWaitSpec, C4_extractRetryAfter_eval]
    norm_num

/-- C4 amended: for every retried attempt the wait is
delay * backoff ^ attempt; when the error carries a retry-after hint
that strictly exceeds the computed backoff, the wait is instead
hint + 500ms, which in that case coincides with
max(computed, hint + 500ms).  (A hint at or below the computed backoff
is ignored, unlike the claimed unconditional max formula.) -/
theorem C4_withRetry_wait (parseFloatO : String → Option ℚ) (delay backoff : ℚ)
    (attempt : ℕ) (error : JVal) :
    (extractRetryAfter parseFloatO error = none →
      withRetryWaitTime parseFloatO delay backoff attempt error = delay * backoff ^ attempt) ∧
    ∀ ra : ℤ, extractRetryAfter parseFloatO error = some ra →
      withRetryWaitTime parseFloatO delay backoff attempt error =
        if delay * backoff ^ attempt < (ra : ℚ) then
          max (delay * backoff ^ attempt) ((ra : ℚ) + 500)
        else delay * backoff ^ attempt := by
  constructor
  · intro h
    unfold withRetryWaitTime
    rw [h]
  · intro ra h
    unfold withRetryWaitTime
    rw [h]
    by_cases hgt : delay * backoff ^ attempt < (ra : ℚ)
    · have hmax : max (delay * backoff ^ attempt) ((ra : ℚ) + 500) = (ra : ℚ) + 500 := by
        refine max_eq_right (le_of_lt (lt_of_lt_of_le hgt ?_))
        linarith
      simp only [gt_iff_lt, hgt, if_true, hmax]
    · simp only [gt_iff_lt, hgt, if_false]

theorem C4_witness :
    withRetryWaitTime sampleParseFloat 1000 2 0 .null = 1000 * 2 ^ 0 ∧
      withRetryWaitTime sampleParseFloat 250 2 2 C4error =
        (if (250 : ℚ) * 2 ^ 2 < ((1000 : ℤ) : ℚ) then
          max ((250 : ℚ) * 2 ^ 2) (((1000 : ℤ) : ℚ) + 500)
        else (250 : ℚ) * 2 ^ 2) :=
  ⟨(C4_withRetry_wait sampleParseFloat 1000 2 0 .null).1 rfl,
   (C4_withRetry_wait sampleParseFloat 250 2 2 C4error).2 1000 C4_extractRetryAfter_eval⟩

/-! ## Rate-limited caller (packages/shared/src/rateLimit.ts).  The
module-level lastCall timestamp is threaded explicitly; a call arriving
at time now waits max(0, minInterval - (now - lastCall)) and then sets
lastCall to the dispatch time immediately before invoking the wrapped
operation. -/

/-- The default minInterval of rateLimitedCall (rateLimit.ts line 5). -/
def rateLimitedCallDefaultInterval : ℤ := 300

/-- One rateLimitedCall on the shared limiter: given the stored
lastCall and the arrival time, return the dispatch time of the wrapped
operation and the updated lastCall (equal to the dispatch time, written
just before dispatch). -/
def rateLimitedCallStep (minIntervalMs lastCall now : ℤ) : ℤ × ℤ :=
  let wait := max 0 (minIntervalMs - (now - lastCall))
  (now + wait, now + wait)

/-- Dispatch times of a sequence of sequentially awaited calls with the
given arrival times. -/
def rateLimitSchedule (minIntervalMs : ℤ) : ℤ → List ℤ → List ℤ
  | _, [] => []
  | lastCall, now :: rest =>
    (rateLimitedCallStep minIntervalMs lastCall now).1 ::
      rateLimitSchedule minIntervalMs (rateLimitedCallStep minIntervalMs lastCall now).2 rest

theorem rateLimitedCallStep_spacing (m lastCall now : ℤ) :
    lastCall + m ≤ (rateLimitedCallStep m lastCall now).1 := by
  unfold rateLimitedCallStep
  have h := le_max_right (0 : ℤ) (m - (now - lastCall))
  simp only
  omega

theorem rateLimitSchedule_chain (m : ℤ) (lastCall : ℤ) (arrivals : List ℤ) :
    List.Chain' (fun a b => a + m ≤ b) (rateLimitSchedule m lastCall arrivals) := by
  induction arrivals generalizing lastCall with
  | nil => simp [rateLimitSchedule]
  | cons now rest ih =>
    rw [rateLimitSchedule]
    refine List.chain'_cons'.mpr ⟨?_, ih _⟩
    intro y hy
    cases rest with
    | nil => simp [rateLimitSchedule] at hy
    | cons now2 rest2 =>
      rw [rateLimitSchedule] at hy
      simp only [List.head?_cons, Option.mem_def, Option.some.injEq] at hy
      rw [← hy]
      exact rateLimitedCallStep_spacing m _ now2

/-- Two rateLimitedCall invocations whose awaits interleave so that
both read the same stored lastCall before either write: the source has
no queue — each caller reads lastCall, sleeps out its computed wait,
and only then writes the timestamp — so two concurrently arriving
callers both compute their wait from the same stale timestamp and
dispatch independently. -/
def rateLimitedCallConcurrentPair (m lastCall now1 now2 : ℤ) : ℤ × ℤ :=
  ((rateLimitedCallStep m lastCall now1).1, (rateLimitedCallStep m lastCall now2).1)

/-- C9 counterexample: the default minInterval of the shared
rateLimitedCall is 300ms, not the claimed 2500ms; and the universal
guarantee that no two invocations on the shared limiter start less
than minInterval apart is false for concurrent callers: with stored
lastCall 900 and the default interval, two callers arriving at 1000
and 1050 that both read the stale timestamp before either write
dispatch at the same instant 1200 — zero milliseconds apart. -/
theorem C9_counterexample :
    rateLimitedCallDefaultInterval = 300 ∧
      rateLimitedCallDefaultInterval ≠ 2500 ∧
      rateLimitedCallConcurrentPair rateLimitedCallDefaultInterval 900 1000 1050
        = (1200, 1200) ∧
      ¬ ((rateLimitedCallConcurrentPair rateLimitedCallDefaultInterval 900 1000 1050).1 +
            rateLimitedCallDefaultInterval ≤
          (rateLimitedCallConcurrentPair rateLimitedCallDefaultInterval 900 1000 1050).2 ∨
         (rateLimitedCallConcurrentPair rateLimitedCallDefaultInterval 900 1000 1050).2 +
            rateLimitedCallDefaultInterval ≤
          (rateLimitedCallConcurrentPair rateLimitedCallDefaultInterval 900 1000 1050).1) := by
  refine ⟨rfl, by decide, by decide, by decide⟩

/-- C9 amended: the default minInterval of the shared rateLimitedCall
is 300ms, not 2500ms, and the spacing guarantee holds only for
sequentially awaited invocations — each arriving after the previous
caller's timestamp write, the FIFO-blocking discipline the limiter
relies on; for concurrently interleaved callers it fails, see the
counterexample.  In the sequential model every dispatch is at least
minInterval after the stored lastCall, consecutive dispatch times are
spaced by at least minInterval, and the shared lastCall timestamp is
updated to the dispatch time just before the wrapped operation runs. -/
theorem C9_rateLimiter (m lastCall now : ℤ) (arrivals : List ℤ) :
    rateLimitedCallDefaultInterval = 300 ∧
      lastCall + m ≤ (rateLimitedCallStep m lastCall now).1 ∧
      (rateLimitedCallStep m lastCall now).2 = (rateLimitedCallStep m lastCall now).1 ∧
      List.Chain' (fun a b => a + m ≤ b) (rateLimitSchedule m lastCall arrivals) :=
  ⟨rfl, rateLimitedCallStep_spacing m lastCall now, rfl,
    rateLimitSchedule_chain m lastCall arrivals⟩

/-! ## UI synthesis stage (packages/ai-engine/src/ui/ui.ts).

The second LLM call of inferPropTypesWithLLM is an oracle parameter
(component name and props to propTypes record); its structural fallback
heuristic is embedded below.  The zod parse of the first model response
is external library behaviour, so generateUI is modelled on the parse
outcome: either the strictly parsed response or, on parse failure, the
optional raw components array that flexible recovery inspects. -/

def UI_PROP_TYPES : List String :=
  ["text", "number", "boolean", "severity", "color", "icon",
   "list", "keyValue", "percentage", "url", "date"]

structure ReqProp where
  name : String
  type : String
  description : String
deriving Repr, DecidableEq

structure SchemaEntry where
  name : String
  description : String
  requiredProps : List ReqProp
deriving Repr, DecidableEq

structure ComponentMetadata where
  intent : String
  confidence : ℚ
  sources : List String
deriving Repr

structure ComponentInstance where
  component : String
  variant : String
  priority : ℚ
  props : List (String × JVal)
  metadata : ComponentMetadata
deriving Repr

structure UISchema where
  generatedComponents : List SchemaEntry
deriving Repr

structure LayoutHints where
  primaryComponent : Option String
deriving Repr

structure DynamicUIResponse where
  schema : UISchema
  components : List ComponentInstance
  layoutHints : Option LayoutHints
deriving Repr

/-- A raw element of the model-produced components array as flexible
recovery sees it; absent JS fields are none.  A primitive array element
behaves as a record with no fields; a null element would throw in the
source and is not modelled. -/
structure RawComponent where
  component : Option String
  variant : Option String
  priority : Option ℚ
  props : Option (List (String × JVal))
  metadata : Option (Option String × Option ℚ × Option (List String))
deriving Repr

/-- Answer shape of inferPropTypesWithLLM: a propTypes record mapping
prop names to semantic type names. -/
def PropTypeOracle : Type := String → List (String × JVal) → List (String × String)

/-- The structural fallback of inferPropTypesWithLLM (ui.ts lines
89-105), used when the LLM call fails. -/
def inferPropTypesFallback (props : List (String × JVal)) : List (String × String) :=
  props.map (fun kv =>
    (kv.1,
      match kv.2 with
      | .num q => if ((0 : ℚ) ≤ q ∧ q ≤ 1) ∨ ((0 : ℚ) ≤ q ∧ q ≤ 100) then "percentage" else "number"
      | .bool _ => "boolean"
      | .arr [] => "list"
      | .arr (v :: _) =>
        match v with
        | .obj fs => if fs.any (fun f => f.1 == "key") then "keyValue" else "list"
        | _ => "list"
      | .obj _ => "keyValue"
      | _ => "text"))

/-- propTypes[key] || "text" on an oracle answer. -/
def propTypeLookup (propTypes : List (String × String)) (key : String) : String :=
  jsOrStr ((propTypes.find? (fun pt => pt.1 == key)).map (fun pt => pt.2)) "text"

/-- Prop normalisation shared by normalizeComponent and
validateComponentsMatchSchema: JSON.stringify every plain-object value
(arrays and primitives pass through). -/
def normalizeProps (props : List (String × JVal)) : List (String × JVal) :=
  props.map (fun kv =>
    match kv.2 with
    | .obj fs => (kv.1, .str (JVal.obj fs).stringify)
    | _ => kv)

/-- ui.ts normalizeComponent: default every missing or falsy field of a
raw component, naming nameless components after their index. -/
def normalizeComponent (userIntent : String) (i : ℕ) (c : RawComponent) : ComponentInstance :=
  { component := jsOrStr c.component ("Component" ++ toString i)
    variant := jsOrStr c.variant "card"
    priority := jsOrNum c.priority ((i : ℚ) + 1)
    props := normalizeProps (c.props.getD [])
    metadata :=
      { intent := jsOrStr (c.metadata.bind (fun m => m.1)) userIntent
        confidence := jsOrNum (c.metadata.bind (fun m => m.2.1)) 0.5
        sources := (c.metadata.bind (fun m => m.2.2)).getD [] } }

/-- Extending one inferred schema entry with the not-yet-seen prop
names of a component instance (inner loop of
inferSchemaFromComponentsWithLLM). -/
def addReqProps (oracle : PropTypeOracle) (entry : SchemaEntry) (cname : String)
    (props : List (String × JVal)) : SchemaEntry :=
  { entry with
    requiredProps := props.foldl (fun rps kv =>
      if rps.any (fun p => p.name == kv.1) then rps
      else rps ++ [{ name := kv.1
                     type := propTypeLookup (oracle cname props) kv.1
                     description := "Auto-inferred: " ++ kv.1 }]) entry.requiredProps }

/-- One iteration of inferSchemaFromComponentsWithLLM: skip elements
without a component name, create the schema entry for a new name, and
extend the entry with inferred prop types when props exist. -/
def inferStep (oracle : PropTypeOracle) (acc : List SchemaEntry) (c : RawComponent) :
    List SchemaEntry :=
  match c.component with
  | none => acc
  | some cname =>
    let acc2 := if acc.any (fun s => s.name == cname) then acc
      else acc ++ [{ name := cname
                     description := "Auto-inferred component: " ++ cname
                     requiredProps := [] }]
    match c.props with
    | some props => acc2.map (fun s => if s.name == cname then addReqProps oracle s cname props else s)
    | none => acc2

/-- ui.ts inferSchemaFromComponentsWithLLM: one schema entry per
distinct component name occurring in the raw array. -/
def inferSchemaFromComponents (oracle : PropTypeOracle) (comps : List RawComponent) :
    List SchemaEntry :=
  comps.foldl (inferStep oracle) []

/-- The absolute fallback response of attemptFlexibleRecovery (ui.ts
lines 305-326): one static AnalysisResult card carrying a fixed
placeholder message at confidence 0.3. -/
def uiFallbackResponse (userIntent : String) : DynamicUIResponse :=
  { schema :=
      { generatedComponents :=
          [{ name := "AnalysisResult"
             description := "General analysis output"
             requiredProps :=
               [{ name := "content", type := "text", description := "Analysis content" },
                { name := "severity", type := "severity", description := "Importance level" }] }] }
    components :=
      [{ component := "AnalysisResult"
         variant := "card"
         priority := 1
         props := [("content", .str "Unable to generate specialized UI. Please check the raw analysis."),
                   ("severity", .str "info")]
         metadata := { intent := userIntent, confidence := 0.3, sources := [] } }]
    layoutHints := none }

/-- ui.ts attemptFlexibleRecovery: when the unparseable model output
still carries a non-empty components array, infer a schema from it and
normalise each component; otherwise emit the absolute fallback. -/
def attemptFlexibleRecovery (oracle : PropTypeOracle) (userIntent : String)
    (rawComps : Option (List RawComponent)) : DynamicUIResponse :=
  match rawComps with
  | some comps =>
    if comps.length > 0 then
      { schema := { generatedComponents := inferSchemaFromComponents oracle comps }
        components := comps.enum.map (fun p => normalizeComponent userIntent p.1 p.2)
        layoutHints := some { primaryComponent := comps.head?.bind (fun c => c.component) } }
    else uiFallbackResponse userIntent
  | none => uiFallbackResponse userIntent

/-- Loop body of validateComponentsMatchSchema: components matching the
initial schema-name set pass through; a mismatched component has its
props normalised and a schema entry synthesized, appended to the
accumulated additions. -/
def validateStep (oracle : PropTypeOracle) (schemaNames : List String)
    (acc : List ComponentInstance × List SchemaEntry) (c : ComponentInstance) :
    List ComponentInstance × List SchemaEntry :=
  if c.component ∈ schemaNames then (acc.1 ++ [c], acc.2)
  else
    let nprops := normalizeProps c.props
    (acc.1 ++ [{ c with props := nprops }],
      acc.2 ++ [{ name := c.component
                  description := "Dynamically added: " ++ c.component
                  requiredProps := nprops.map (fun kv =>
                    { name := kv.1
                      type := propTypeLookup (oracle c.component nprops) kv.1
                      description := "Auto-inferred from component" }) }])

/-- ui.ts validateComponentsMatchSchema: the schema-name set is
computed once up front; every component whose name is missing from it
gets a synthesized schema entry appended to schema.generatedComponents
(and its props normalised in place). -/
def validateComponentsMatchSchema (oracle : PropTypeOracle) (response : DynamicUIResponse) :
    DynamicUIResponse :=
  let schemaNames := response.schema.generatedComponents.map (fun s => s.name)
  let res := response.components.foldl (validateStep oracle schemaNames) ([], [])
  { schema := { generatedComponents := response.schema.generatedComponents ++ res.2 }
    components := res.1
    layoutHints := response.layoutHints }

/-- Outcome of parsing the first model response in generateUI: the zod
schema parse either succeeds with a typed response or fails, in which
case flexible recovery receives the raw components array when one is
present. -/
inductive UIParseOutcome where
  | strict (r : DynamicUIResponse)
  | flexible (raw : Option (List RawComponent))

/-- generateUI after JSON parsing (ui.ts lines 273-283): validate the
strictly parsed response, or run flexible recovery. -/
def generateUICore (oracle : PropTypeOracle) (userIntent : String) :
    UIParseOutcome → DynamicUIResponse
  | .strict r => validateComponentsMatchSchema oracle r
  | .flexible raw => attemptFlexibleRecovery oracle userIntent raw

/-- The schema-reference invariant of the spec: every component name in
components exists in schema.generatedComponents. -/
def uiInvariant (r : DynamicUIResponse) : Prop :=
  ∀ c ∈ r.components, c.component ∈ r.schema.generatedComponents.map (fun s => s.name)

/-- Lookup of a string-valued prop, used to state facts about props
without comparing whole JSON values. -/
def propStr (props : List (String × JVal)) (k : String) : Option String :=
  match props.find? (fun kv => kv.1 == k) with
  | some kv =>
    match kv.2 with
    | .str s => some s
    | _ => none
  | none => none

theorem validateStep_inv (oracle : PropTypeOracle) (schemaNames : List String)
    (acc : List ComponentInstance × List SchemaEntry) (c : ComponentInstance)
    (h : ∀ x ∈ acc.1, x.component ∈ schemaNames ∨ x.component ∈ acc.2.map (fun s => s.name)) :
    ∀ x ∈ (validateStep oracle schemaNames acc c).1,
      x.component ∈ schemaNames ∨
        x.component ∈ (validateStep oracle schemaNames acc c).2.map (fun s => s.name) := by
  intro x hx
  unfold validateStep at hx ⊢
  by_cases hc : c.component ∈ schemaNames
  · simp only [hc, if_true] at hx ⊢
    rcases List.mem_append.mp hx with h1 | h1
    · exact h x h1
    · rw [List.mem_singleton.mp h1]
      exact Or.inl hc
  · simp only [hc, if_false] at hx ⊢
    rcases List.mem_append.mp hx with h1 | h1
    · rcases h x h1 with h2 | h2
      · exact Or.inl h2
      · right
        rw [List.map_append]
        exact List.mem_append.mpr (Or.inl h2)
    · right
      rw [List.mem_singleton.mp h1, List.map_append]
      refine List.mem_append.mpr (Or.inr ?_)
      simp

theorem validateFold_inv (oracle : PropTypeOracle) (schemaNames : List String)
    (l : List ComponentInstance) :
    ∀ acc, (∀ x ∈ acc.1, x.component ∈ schemaNames ∨ x.component ∈ acc.2.map (fun s => s.name)) →
    ∀ x ∈ (l.foldl (validateStep oracle schemaNames) acc).1,
      x.component ∈ schemaNames ∨
        x.component ∈ (l.foldl (validateStep oracle schemaNames) acc).2.map (fun s => s.name) := by
  induction l with
  | nil => intro acc h; simpa using h
  | cons c tl ih =>
    intro acc h
    exact ih _ (validateStep_inv oracle schemaNames acc c h)

theorem validate_invariant (oracle : PropTypeOracle) (r : DynamicUIResponse) :
    uiInvariant (validateComponentsMatchSchema oracle r) := by
  intro c hc
  unfold validateComponentsMatchSchema at hc ⊢
  simp only at hc ⊢
  have h := validateFold_inv oracle (r.schema.generatedComponents.map (fun s => s.name))
    r.components ([], []) (by intro x hx; cases hx) c hc
  rw [List.map_append]
  rcases h with h1 | h1
  · exact List.mem_append.mpr (Or.inl h1)
  · exact List.mem_append.mpr (Or.inr h1)

theorem uiFallback_invariant (intent : String) : uiInvariant (uiFallbackResponse intent) := by
  intro c hc
  rw [List.mem_singleton.mp hc]
  simp [uiFallbackResponse]

theorem addReqProps_name (oracle : PropTypeOracle) (s : SchemaEntry) (cname : String)
    (props : List (String × JVal)) : (addReqProps oracle s cname props).name = s.name := rfl

theorem inferStep_map_names (oracle : PropTypeOracle) (cname : String)
    (props : List (String × JVal)) (l : List SchemaEntry) :
    ((l.map (fun s => if s.name == cname then addReqProps oracle s cname props else s)).map
        (fun s => s.name)) = l.map (fun s => s.name) := by
  rw [List.map_map]
  refine List.map_congr_left ?_
  intro s _
  by_cases h : s.name = cname
  · simp [h, addReqProps_name]
  · simp [h]

theorem inferStep_names_mono (oracle : PropTypeOracle) (acc : List SchemaEntry)
    (c : RawComponent) (t : String) (h : t ∈ acc.map (fun s => s.name)) :
    t ∈ (inferStep oracle acc c).map (fun s => s.name) := by
  unfold inferStep
  cases hc : c.component with
  | none => exact h
  | some cname =>
    simp only
    have hacc2 : t ∈ ((if acc.any (fun s => s.name == cname) then acc
        else acc ++ [{ name := cname
                       description := "Auto-inferred component: " ++ cname
                       requiredProps := [] }]).map (fun s => s.name)) := by
      split
      · exact h
      · rw [List.map_append]
        exact List.mem_append.mpr (Or.inl h)
    cases hp : c.props with
    | none => exact hacc2
    | some props =>
      simp only
      rw [inferStep_map_names]
      exact hacc2

theorem inferStep_adds_name (oracle : PropTypeOracle) (acc : List SchemaEntry)
    (c : RawComponent) (cname : String) (h : c.component = some cname) :
    cname ∈ (inferStep oracle acc c).map (fun s => s.name) := by
  unfold inferStep
  rw [h]
  simp only
  have hacc2 : cname ∈ ((if acc.any (fun s => s.name == cname) then acc
      else acc ++ [{ name := cname
                     description := "Auto-inferred component: " ++ cname
                     requiredProps := [] }]).map (fun s => s.name)) := by
    split
    · rename_i hany
      obtain ⟨s, hs, hsn⟩ := List.any_eq_true.mp hany
      exact List.mem_map.mpr ⟨s, hs, by simpa using hsn⟩
    · rw [List.map_append]
      refine List.mem_append.mpr (Or.inr ?_)
      simp
  cases hp : c.props with
  | none => exact hacc2
  | some props =>
    simp only
    rw [inferStep_map_names]
    exact hacc2

theorem inferFold_names_mono (oracle : PropTypeOracle) (comps : List RawComponent)
    (t : String) :
    ∀ acc, t ∈ acc.map (fun s => s.name) →
      t ∈ (comps.foldl (inferStep oracle) acc).map (fun s => s.name) := by
  induction comps with
  | nil => intro acc h; simpa using h
  | cons c tl ih =>
    intro acc h
    exact ih _ (inferStep_names_mono oracle acc c t h)

theorem inferSchema_mem (oracle : PropTypeOracle) (comps : List RawComponent)
    (c : RawComponent) (hc : c ∈ comps) (cname : String) (h : c.component = some cname) :
    cname ∈ (inferSchemaFromComponents oracle comps).map (fun s => s.name) := by
  unfold inferSchemaFromComponents
  have main : ∀ (l : List RawComponent) (acc : List SchemaEntry), c ∈ l →
      cname ∈ (l.foldl (inferStep oracle) acc).map (fun s => s.name) := by
    intro l
    induction l with
    | nil => intro acc hmem; cases hmem
    | cons hd tl ih =>
      intro acc hmem
      rcases List.mem_cons.mp hmem with heq | hmem2
      · subst heq
        exact inferFold_names_mono oracle tl cname _ (inferStep_adds_name oracle acc c cname h)
      · exact ih _ hmem2
  exact main comps [] hc

theorem attemptFlexibleRecovery_invariant (oracle : PropTypeOracle) (intent : String)
    (comps : List RawComponent)
    (h : ∀ c ∈ comps, ∃ s, c.component = some s ∧ s ≠ "") :
    uiInvariant (attemptFlexibleRecovery oracle intent (some comps)) := by
  unfold attemptFlexibleRecovery
  by_cases hlen : comps.length > 0
  · simp only [hlen, if_true]
    intro x hx
    simp only at hx ⊢
    obtain ⟨p, hmem, hnorm⟩ := List.mem_map.mp hx
    have hcm : p.2 ∈ comps := by
      have h2 := List.mem_map_of_mem Prod.snd hmem
      rwa [List.enum_map_snd] at h2
    obtain ⟨s, hcs, hsne⟩ := h p.2 hcm
    have hxname : x.component = s := by
      rw [← hnorm]
      simp [normalizeComponent, hcs, jsOrStr, hsne]
    rw [hxname]
    exact inferSchema_mem oracle comps p.2 hcm s hcs
  · simp only [hlen, if_false]
    exact uiFallback_invariant intent

/-! ## Claim C1. -/

/-- C1 amended: the component-name/schema invariant holds on the
strict-parse path (validateComponentsMatchSchema synthesizes a schema
entry for every missing name) and on the absolute-fallback path, and on
the flexible-recovery path whenever every recovered raw component
carries a non-empty component name.  (A raw component without one is
renamed Component followed by its index without a synthesized schema
entry, so the invariant can fail there — see the counterexample.) -/
theorem C1_component_schema_invariant (oracle : PropTypeOracle) (intent : String)
    (r : DynamicUIResponse) (comps : List RawComponent)
    (h : ∀ c ∈ comps, ∃ s, c.component = some s ∧ s ≠ "") :
    uiInvariant (generateUICore oracle intent (.strict r)) ∧
      uiInvariant (generateUICore oracle intent (.flexible none)) ∧
      uiInvariant (generateUICore oracle intent (.flexible (some comps))) :=
  ⟨validate_invariant oracle r, uiFallback_invariant intent,
    attemptFlexibleRecovery_invariant oracle intent comps h⟩

def C1badRaw : RawComponent :=
  { component := none, variant := none, priority := none, props := none, metadata := none }

def C1resp : DynamicUIResponse :=
  generateUICore (fun _ _ => []) "General Health" (.flexible (some [C1badRaw]))

/-- C1 counterexample: on the flexible-recovery path a raw component
without a component name is renamed Component0 by normalizeComponent,
but inferSchemaFromComponentsWithLLM skipped it, so no schema entry is
synthesized and the response leaves the stage violating the claimed
invariant.  (generateUI returns the recovery result without running
validateComponentsMatchSchema.) -/
theorem C1_counterexample :
    (C1resp.components.map (fun c => c.component)) = ["Component0"] ∧
      C1resp.schema.generatedComponents = [] ∧
      ¬ uiInvariant C1resp := by
  refine ⟨rfl, rfl, ?_⟩
  intro hinv
  have h := hinv (normalizeComponent "General Health" 0 C1badRaw)
    (List.mem_singleton.mpr rfl)
  exact List.not_mem_nil _ h

theorem C1_witness :
    uiInvariant (generateUICore (fun _ _ => []) "Fitness Performance"
      (.flexible (some [{ component := some "CaffeineImpact", variant := some "meter",
                          priority := some 1, props := some [("level", .num 1)],
                          metadata := none }]))) :=
  (C1_component_schema_invariant (fun _ _ => []) "Fitness Performance"
    { schema := { generatedComponents := [] }, components := [], layoutHints := none } _
    (fun c hc => ⟨"CaffeineImpact", by rw [List.mem_singleton.mp hc], by decide⟩)).2.2

/-! ## Claim C8. -/

/-- C8 amended: when nothing usable is recoverable (no components array
or an empty one), generateUI returns the absolute fallback: exactly one
component named AnalysisResult at metadata confidence 0.3 whose content
prop carries a fixed placeholder message — not the raw analysis text,
which attemptFlexibleRecovery never receives — and this fallback
payload is well-formed and non-empty.  generateUI can however return an
empty components array when the strictly parsed model output itself has
one. -/
theorem C8_fallback_shape (oracle : PropTypeOracle) (intent : String) :
    attemptFlexibleRecovery oracle intent none = uiFallbackResponse intent ∧
      attemptFlexibleRecovery oracle intent (some []) = uiFallbackResponse intent ∧
      ((uiFallbackResponse intent).components.map (fun c => c.component)) = ["AnalysisResult"] ∧
      ((uiFallbackResponse intent).components.map (fun c => c.metadata.confidence)) = [0.3] ∧
      ((uiFallbackResponse intent).components.map (fun c => propStr c.props "content")) =
        [some "Unable to generate specialized UI. Please check the raw analysis."] ∧
      uiInvariant (uiFallbackResponse intent) :=
  ⟨rfl, rfl, rfl, rfl, rfl, uiFallback_invariant intent⟩

/-- C8 counterexample: with analysis text "Aspartame is approved by the
FDA but restricted in the EU." and unusable model output, the absolute
fallback carries only the fixed placeholder message, never the analysis
text (attemptFlexibleRecovery does not receive the analysis at all);
and a strictly parsed model response with an empty components array is
returned as-is, so generateUI can return an empty components array. -/
theorem C8_counterexample :
    ((generateUICore (fun _ _ => []) "General Health" (.flexible none)).components.map
        (fun c => propStr c.props "content")) =
      [some "Unable to generate specialized UI. Please check the raw analysis."] ∧
      (∀ c ∈ (generateUICore (fun _ _ => []) "General Health" (.flexible none)).components,
        propStr c.props "content" ≠
          some "Aspartame is approved by the FDA but restricted in the EU.") ∧
      (generateUICore (fun _ _ => []) "General Health"
        (.strict { schema := { generatedComponents := [] }, components := [],
                   layoutHints := none })).components = [] := by
  refine ⟨rfl, ?_, rfl⟩
  intro c hc
  rw [List.mem_singleton.mp hc]
  decide

/-! ## Vision stage (packages/ai-engine/src/vision.ts).  The raw model
response after the zod RawVisionResponse parse; the secondary LLM-based
assessment of assessExtractionWithLLM (together with its conservative
catch fallback) is an oracle parameter. -/

structure RawVisionResponse where
  ingredients : Option (List String)
  nutrition : Option (List (String × JVal))
  isReadable : Option Bool
  issues : Option (Option String)
  confidence : Option ℚ
  productType : Option String
  visibleElements : Option (List String)
  extractionNotes : Option String
deriving Repr

structure ExtractionAssessment where
  confidence : ℚ
  extractionQuality : String
  isUsable : Bool
  failureReason : String
  reasoning : String
deriving Repr, DecidableEq

/-- The skip condition of the two-tier quality gate (vision.ts lines
327-330): raw.isReadable !== false (true OR absent), at least 3
extracted ingredients, and self-reported confidence strictly above
0.7 (absent confidence counts as 0). -/
def isHighConfidence (raw : RawVisionResponse) : Prop :=
  raw.isReadable ≠ some false ∧ 3 ≤ (raw.ingredients.getD []).length ∧
    (0.7 : ℚ) < raw.confidence.getD 0

instance (raw : RawVisionResponse) : Decidable (isHighConfidence raw) := by
  unfold isHighConfidence
  infer_instance

/-- The assessment visionAgent ends up with (vision.ts lines 332-342):
skip the secondary assessment and self-certify quality high exactly
when the gate passes, otherwise run assessExtractionWithLLM on the same
raw data. -/
def visionAssessment (assessO : RawVisionResponse → ExtractionAssessment)
    (raw : RawVisionResponse) : ExtractionAssessment :=
  if isHighConfidence raw then
    { confidence := jsOrNum raw.confidence 0.8
      extractionQuality := "high"
      isUsable := true
      failureReason := "none"
      reasoning := "High confidence extraction skipped secondary assessment" }
  else assessO raw

/-- A raw response that does not self-report readable at all, with 3
ingredients and confidence 0.8. -/
def C6rawUnreported : RawVisionResponse :=
  { ingredients := some ["water", "sugar", "citric acid"]
    nutrition := none
    isReadable := none
    issues := none
    confidence := some 0.8
    productType := none
    visibleElements := none
    extractionNotes := none }

/-- A secondary assessment oracle whose answer is observably different
from the self-certified high assessment. -/
def C6secondary : RawVisionResponse → ExtractionAssessment := fun _ =>
  { confidence := 0.2
    extractionQuality := "low"
    isUsable := false
    failureReason := "low_confidence"
    reasoning := "secondary assessment" }

/-- C6 counterexample: a raw response whose isReadable field is absent
(so it does not self-report readable=true) still passes the gate —
the code tests isReadable !== false — and the secondary assessment is
skipped, returning quality high where the secondary oracle would have
said low.  The claimed "exactly when readable=true" boundary is
therefore false. -/
theorem C6_counterexample :
    isHighConfidence C6rawUnreported ∧
      C6rawUnreported.isReadable ≠ some true ∧
      (visionAssessment C6secondary C6rawUnreported).extractionQuality = "high" ∧
      (C6secondary C6rawUnreported).extractionQuality = "low" := by
  have hhigh : isHighConfidence C6rawUnreported := by
    refine ⟨by simp [C6rawUnreported], by simp [C6rawUnreported], ?_⟩
    show (0.7 : ℚ) < (some (0.8 : ℚ)).getD 0
    norm_num
  refine ⟨hhigh, by simp [C6rawUnreported], ?_, rfl⟩
  rw [visionAssessment, if_pos hhigh]

/-- C6 amended: the secondary assessment is skipped — and the
extraction marked quality high, usable, with failure reason none and
the raw confidence (0.8 when falsy) — exactly when the raw response
does not self-report readable=false (readable true or absent), contains
at least 3 ingredients, and has confidence strictly above 0.7; in every
other case assessExtractionWithLLM is invoked on the same raw data. -/
theorem C6_two_tier_gate (assessO : RawVisionResponse → ExtractionAssessment)
    (raw : RawVisionResponse) :
    (isHighConfidence raw →
      visionAssessment assessO raw =
        { confidence := jsOrNum raw.confidence 0.8
          extractionQuality := "high"
          isUsable := true
          failureReason := "none"
          reasoning := "High confidence extraction skipped secondary assessment" }) ∧
      (¬ isHighConfidence raw → visionAssessment assessO raw = assessO raw) ∧
      (raw.isReadable = some true → 3 ≤ (raw.ingredients.getD []).length →
        (0.7 : ℚ) < raw.confidence.getD 0 → isHighConfidence raw) ∧
      (isHighConfidence raw →
        raw.isReadable ≠ some false ∧ 3 ≤ (raw.ingredients.getD []).length ∧
          (0.7 : ℚ) < raw.confidence.getD 0) := by
  refine ⟨?_, ?_, ?_, ?_⟩
  · intro h
    rw [visionAssessment, if_pos h]
  · intro h
    rw [visionAssessment, if_neg h]
  · intro h1 h2 h3
    exact ⟨by rw [h1]; simp, h2, h3⟩
  · exact fun h => h

def C6rawGood : RawVisionResponse :=
  { ingredients := some ["water", "sugar", "citric acid", "aroma"]
    nutrition := none
    isReadable := some true
    issues := none
    confidence := some 0.9
    productType := some "beverage"
    visibleElements := none
    extractionNotes := none }

def C6rawBad : RawVisionResponse :=
  { ingredients := none
    nutrition := none
    isReadable := some false
    issues := none
    confidence := none
    productType := none
    visibleElements := none
    extractionNotes := none }

theorem C6_witness :
    visionAssessment C6secondary C6rawGood =
        { confidence := jsOrNum C6rawGood.confidence 0.8
          extractionQuality := "high"
          isUsable := true
          failureReason := "none"
          reasoning := "High confidence extraction skipped secondary assessment" } ∧
      visionAssessment C6secondary C6rawBad = C6secondary C6rawBad :=
  ⟨(C6_two_tier_gate C6secondary C6rawGood).1
      ((C6_two_tier_gate C6secondary C6rawGood).2.2.1 rfl (by simp [C6rawGood])
        (by show (0.7 : ℚ) < (some (0.9 : ℚ)).getD 0; norm_num)),
   (C6_two_tier_gate C6secondary C6rawBad).2.1
      (fun h => absurd rfl h.1)⟩

/-! ## Scan route vision-failure envelope (the Hono /api/scan route)
and the conversational prompt generation of vision.ts. -/

structure DetectedContext where
  productType : Option String
  visibleElements : Option (List String)
  suggestedQuestions : Option (List String)
deriving Repr, DecidableEq

structure VisionFailureResult where
  message : String
  detectedContext : DetectedContext
  failureReason : String
  confidence : ℚ
deriving Repr, DecidableEq

/-- The static suggestions of generateConversationPromptWithLLM when
the parsed response lacks the field. -/
def conversationPromptDefaults : List String :=
  ["Try a different photo", "Enter the product manually", "Scan the barcode instead"]

/-- vision.ts generateConversationPromptWithLLM success path: keep the
parsed message and suggestedQuestions, defaulting each missing or falsy
field.  A present array — even an empty one — is truthy and kept
as-is.  (Non-array truthy field values, which the untyped source would
pass through, are not modelled; non-string array elements are
dropped rather than stringified.) -/
def conversationPromptOfParsed (parsed : JVal) : String × List String :=
  (jsOrStr
      (match parsed.get "message" with
       | some (.str s) => some s
       | _ => none) "I had trouble processing this image. Can you try again?",
   match parsed.get "suggestedQuestions" with
   | some (.arr l) => l.filterMap (fun v =>
      match v with
      | .str s => some s
      | _ => none)
   | _ => conversationPromptDefaults)

/-- vision.ts generateConversationPromptWithLLM catch path: the static
fallback message with exactly 3 suggestions. -/
def conversationPromptFallback (raw : RawVisionResponse) : String × List String :=
  ("I couldn\x27t fully process this " ++ jsOrStr raw.productType "product" ++
      " image. Would you like to try a different approach?",
   ["Take a clearer photo of the label", "Scan the barcode instead",
    "Tell me what product this is"])

/-- vision.ts createFailureResult given the generated conversation
prompt: the suggestions are folded into detectedContext. -/
def createFailureResult (raw : RawVisionResponse) (failureReason : String)
    (confidence : ℚ) (conv : String × List String) : VisionFailureResult :=
  { message := conv.1
    detectedContext :=
      { productType := raw.productType
        visibleElements := raw.visibleElements
        suggestedQuestions := some conv.2 }
    failureReason := failureReason
    confidence := confidence }

/-- JSON serialisation of detectedContext (undefined fields dropped,
as c.json does). -/
def detectedContextJson (d : DetectedContext) : JVal :=
  .obj ((match d.productType with
         | some p => [("productType", JVal.str p)]
         | none => []) ++
        (match d.visibleElements with
         | some l => [("visibleElements", JVal.arr (l.map JVal.str))]
         | none => []) ++
        (match d.suggestedQuestions with
         | some l => [("suggestedQuestions", JVal.arr (l.map JVal.str))]
         | none => []))

/-- The vision-failure response of the live /api/scan route: exactly
the three fields status, message and detectedContext. -/
def scanVisionFailedResponse (v : VisionFailureResult) : JVal :=
  .obj [("status", .str "vision_failed"),
        ("message", .str v.message),
        ("detectedContext", detectedContextJson v.detectedContext)]

/-- The envelope shape asserted by claim C7, written from the claim:
failureReason and confidence fields present and a components array
holding exactly one ConversationPrompt. -/
def claimedVisionFailedShape (resp : JVal) : Prop :=
  (resp.get "failureReason").isSome ∧ (resp.get "confidence").isSome ∧
    ∃ comp : JVal, resp.get "components" = some (.arr [comp]) ∧
      comp.get "component" = some (.str "ConversationPrompt")

def C7rawContext : RawVisionResponse :=
  { ingredients := none
    nutrition := none
    isReadable := some false
    issues := none
    confidence := some 0
    productType := some "beverage"
    visibleElements := some ["bottle"]
    extractionNotes := none }

def C7failure : VisionFailureResult :=
  createFailureResult C7rawContext "unreadable_text" 0
    (conversationPromptFallback C7rawContext)

/-- C7 counterexample: the live scan route returns only status, message
and detectedContext on vision failure — no failureReason, no
confidence, and no components array with a ConversationPrompt — so the
claimed envelope shape fails; moreover the non-empty-suggestions
guarantee fails even inside the prompt generator, which keeps a
present-but-empty suggestedQuestions array as-is. -/
theorem C7_counterexample :
    ¬ claimedVisionFailedShape (scanVisionFailedResponse C7failure) ∧
      (conversationPromptOfParsed
        (.obj [("message", .str "Hmm."), ("suggestedQuestions", .arr [])])).2 = [] := by
  constructor
  · intro h
    have h1 := h.1
    rw [show (scanVisionFailedResponse C7failure).get "failureReason" = none from rfl] at h1
    simp at h1
  · rfl

/-- C7 amended: whenever the vision stage fails, the live scan route
returns a vision_failed envelope of shape exactly
status/message/detectedContext; the ConversationPrompt component,
failureReason and confidence of the claimed envelope are not included.
The suggested questions ride inside detectedContext.suggestedQuestions,
and the static fallback of the prompt generator guarantees exactly 3
suggestions when the message-generation call itself fails. -/
theorem C7_route_shape (v : VisionFailureResult) (raw : RawVisionResponse)
    (failureReason : String) (confidence : ℚ) :
    (scanVisionFailedResponse v).get "status" = some (.str "vision_failed") ∧
      (scanVisionFailedResponse v).get "message" = some (.str v.message) ∧
      (scanVisionFailedResponse v).get "detectedContext" =
        some (detectedContextJson v.detectedContext) ∧
      (scanVisionFailedResponse v).get "failureReason" = none ∧
      (scanVisionFailedResponse v).get "confidence" = none ∧
      (scanVisionFailedResponse v).get "components" = none ∧
      (createFailureResult raw failureReason confidence
          (conversationPromptFallback raw)).detectedContext.suggestedQuestions =
        some (conversationPromptFallback raw).2 ∧
      (conversationPromptFallback raw).2.length = 3 :=
  ⟨rfl, rfl, rfl, rfl, rfl, rfl, rfl, rfl⟩

end HealthGap
